import Mathlib

/-!
Verification of the gcpbox repository (packages `metadata` and `spanner`)
against its natural-language specification.  The Go sources are shallowly
embedded: Go strings become `String` (lists of characters), `int64` becomes
`Int`, fallible functions return `Except Err`, and the process environment,
the GCE probe and the metadata endpoint are passed explicitly as a `World`
record.
-/

deriving instance DecidableEq for Except

namespace Gcpbox

/-- Modelled from the spec: the repository's error constructors
(`NewErrNotFound`, `NewErrInvalidArgument` from the package's errors file)
are not among the provided sources; the spec's section 7 names the kinds
`NotFound`, `InvalidArgument` and `InvalidFormat` (the latter is the plain
formatted error produced in `ServiceAccountName`), plus wrapped
infrastructure failures.  Key-value payloads passed to the constructors are
dropped; only the kind and message are kept. -/
inductive Err where
  | notFound (msg : String)
  | invalidArgument (msg : String)
  | invalidFormat (msg : String)
  | wrapped (msg : String) (cause : Err)
deriving DecidableEq, Repr

/-- Decimal digits of `n` (most-significant first), by repeated division;
the `fuel` argument only makes the recursion structural.  Models the digit
production of Go's `fmt` verb `%v` on a non-negative integer. -/
def natDecCore : Nat → Nat → List Char
  | 0, _ => []
  | fuel + 1, n => if n = 0 then [] else natDecCore fuel (n / 10) ++ [Nat.digitChar (n % 10)]

/-- Decimal rendering of a natural number, as Go's `fmt` prints it
(`0` prints as `"0"`). -/
def natDecChars (n : Nat) : List Char :=
  if n = 0 then ['0'] else natDecCore (n + 1) n

/-- Decimal rendering of an `int64` value, as Go's `fmt` verb `%v` prints
it: a leading minus sign for negative values, then the decimal digits of
the absolute value. -/
def intDecChars (i : Int) : List Char :=
  if i < 0 then '-' :: natDecChars i.natAbs else natDecChars i.natAbs

/-- Decimal rendering of an `int64`, packaged as a string. -/
def intDecStr (i : Int) : String := String.mk (intDecChars i)

/-- Reads a decimal digit string back to the number it denotes. -/
def parseDec (l : List Char) : Nat :=
  l.foldl (fun acc c => 10 * acc + (c.toNat - 48)) 0

/-- Reads a (possibly sign-prefixed) decimal string back to an integer. -/
def parseIntDec (l : List Char) : Int :=
  match l with
  | [] => 0
  | c :: rest => if c = '-' then -(parseDec rest : Int) else (parseDec (c :: rest) : Int)

theorem digitChar_toNat_sub (d : Nat) (hd : d < 10) : (Nat.digitChar d).toNat - 48 = d := by
  interval_cases d <;> decide

theorem parseDec_core (fuel : Nat) :
    ∀ n, n ≤ fuel → ∀ acc,
      List.foldl (fun a c => 10 * a + (c.toNat - 48)) acc (natDecCore fuel n) =
        acc * 10 ^ (natDecCore fuel n).length + n := by
  induction fuel with
  | zero =>
    intro n hn acc
    interval_cases n
    simp [natDecCore]
  | succ fuel ih =>
    intro n hn acc
    by_cases h0 : n = 0
    · subst h0; simp [natDecCore]
    · have hdiv : n / 10 < n := Nat.div_lt_self (Nat.pos_of_ne_zero h0) (by omega)
      have hle : n / 10 ≤ fuel := by omega
      rw [natDecCore]
      simp only [h0, if_false]
      rw [List.foldl_append, ih (n / 10) hle acc]
      simp only [List.foldl_cons, List.foldl_nil, List.length_append, List.length_cons,
        List.length_nil]
      rw [digitChar_toNat_sub (n % 10) (Nat.mod_lt n (y := 10) (by omega))]
      have hmod : 10 * (n / 10) + n % 10 = n := Nat.div_add_mod n 10
      ring_nf
      omega

theorem parseDec_natDecChars (n : Nat) : parseDec (natDecChars n) = n := by
  by_cases h0 : n = 0
  · subst h0; decide
  · unfold natDecChars parseDec
    simp only [h0, if_false]
    rw [parseDec_core (n + 1) n (by omega) 0]
    omega

theorem natDecChars_inj {a b : Nat} (h : natDecChars a = natDecChars b) : a = b := by
  have := congrArg parseDec h
  rwa [parseDec_natDecChars, parseDec_natDecChars] at this

theorem mem_natDecCore (fuel : Nat) :
    ∀ n c, c ∈ natDecCore fuel n → ∃ d, d < 10 ∧ c = Nat.digitChar d := by
  induction fuel with
  | zero => intro n c hc; simp [natDecCore] at hc
  | succ fuel ih =>
    intro n c hc
    rw [natDecCore] at hc
    by_cases h0 : n = 0
    · simp [h0] at hc
    · simp only [h0, if_false, List.mem_append, List.mem_singleton] at hc
      rcases hc with hc | hc
      · exact ih _ _ hc
      · exact ⟨n % 10, Nat.mod_lt n (y := 10) (by omega), hc⟩

theorem natDecChars_no_minus (n : Nat) : '-' ∉ natDecChars n := by
  unfold natDecChars
  by_cases h0 : n = 0
  · simp [h0]
  · simp only [h0, if_false]
    intro hmem
    obtain ⟨d, hd, heq⟩ := mem_natDecCore (n + 1) n '-' hmem
    revert heq
    interval_cases d <;> decide

theorem natDecChars_ne_nil (n : Nat) : natDecChars n ≠ [] := by
  unfold natDecChars
  by_cases h0 : n = 0
  · simp [h0]
  · simp only [h0, if_false]
    rw [natDecCore]
    simp [h0]

theorem parseIntDec_intDecChars (i : Int) : parseIntDec (intDecChars i) = i := by
  unfold intDecChars
  by_cases hneg : i < 0
  · rw [if_pos hneg]
    have h1 : parseIntDec ('-' :: natDecChars i.natAbs) =
        -(parseDec (natDecChars i.natAbs) : Int) := by
      simp [parseIntDec]
    rw [h1, parseDec_natDecChars]
    omega
  · rw [if_neg hneg]
    rcases hchars : natDecChars i.natAbs with _ | ⟨c, rest⟩
    · exact absurd hchars (natDecChars_ne_nil _)
    · have hc : c ≠ '-' := by
        intro hc
        exact natDecChars_no_minus i.natAbs (by rw [hchars, hc]; exact List.mem_cons_self _ _)
      have h1 : parseIntDec (c :: rest) = (parseDec (c :: rest) : Int) := by
        simp [parseIntDec, hc]
      rw [h1, ← hchars, parseDec_natDecChars]
      omega

theorem intDecChars_inj {a b : Int} (h : intDecChars a = intDecChars b) : a = b := by
  have := congrArg parseIntDec h
  rwa [parseIntDec_intDecChars, parseIntDec_intDecChars] at this

/-- Accumulator-style splitting of a character list at every occurrence of
`sep`; models Go's `strings.Split(s, sep)` for a one-character separator.
Like Go's function it always yields at least one (possibly empty) part. -/
def splitAux (sep : Char) : List Char → List Char → List (List Char)
  | [], acc => [acc.reverse]
  | c :: cs, acc => if c = sep then acc.reverse :: splitAux sep cs [] else splitAux sep cs (c :: acc)

/-- Go's `strings.Split(s, string(sep))`. -/
def goSplit (sep : Char) (s : String) : List String :=
  (splitAux sep s.data []).map String.mk

/-- The abstract outside world a metadata call runs in: the GCE probe
(`metadata.OnGCE`), the process environment (`os.Getenv`, which returns the
empty string for unset variables), and the two metadata-endpoint lookups
used by the embedded functions (`metadata.ProjectID` and the repository's
`getMetadata`), given as their results since their HTTP internals are
external collaborators. -/
structure World where
  onGCE : Bool
  env : String → String
  metaProjectID : Except Err String
  getMeta : String → Except Err String

/-- Embeds `metadata.ProjectID`: off GCE it reads `GOOGLE_CLOUD_PROJECT`
then `GCLOUD_PROJECT`, failing with `NotFound` when both are empty; on GCE
it consults the metadata server, wrapping transport failures and failing
with `NotFound` on an empty answer. -/
def ProjectID (w : World) : Except Err String :=
  if !w.onGCE then
    let p := w.env "GOOGLE_CLOUD_PROJECT"
    if p ≠ "" then Except.ok p
    else
      let q := w.env "GCLOUD_PROJECT"
      if q ≠ "" then Except.ok q
      else Except.error (Err.notFound "project id environment valiable is not found. plz set $GOOGLE_CLOUD_PROJECT")
  else
    match w.metaProjectID with
    | Except.error e => Except.error (Err.wrapped "failed get project id from metadata server" e)
    | Except.ok projectID =>
      if projectID = "" then Except.error (Err.notFound "project id is not found")
      else Except.ok projectID

/-- Embeds `metadata.ServiceAccountEmail`: off GCE it returns the
`GCLOUD_SERVICE_ACCOUNT` environment variable verbatim; on GCE it fetches
`service-accounts/default/email`, wrapping failures. -/
def ServiceAccountEmail (w : World) : Except Err String :=
  if !w.onGCE then Except.ok (w.env "GCLOUD_SERVICE_ACCOUNT")
  else
    match w.getMeta "service-accounts/default/email" with
    | Except.error e => Except.error (Err.wrapped "failed get ServiceAccountEmail" e)
    | Except.ok sa => Except.ok sa

/-- Embeds `metadata.ServiceAccountName`: splits the service-account email
on `@` and demands exactly two parts, returning the first; the `fmt.Errorf`
failure is the kind the spec calls `InvalidFormat`. -/
def ServiceAccountName (w : World) : Except Err String :=
  match ServiceAccountEmail w with
  | Except.error e => Except.error e
  | Except.ok sa =>
    let l := goSplit '@' sa
    if l.length ≠ 2 then Except.error (Err.invalidFormat ("invalid ServiceAccountEmail. email=" ++ sa))
    else Except.ok (l.getD 0 "")

/-- Embeds `metadata.ServiceAccountID`, composing
`projects/$PROJECT_ID/serviceAccounts/$SERVICE_ACCOUNT_EMAIL`. -/
def ServiceAccountID (w : World) : Except Err String :=
  match ServiceAccountEmail w with
  | Except.error e => Except.error e
  | Except.ok sa =>
    match ProjectID w with
    | Except.error e => Except.error e
    | Except.ok pID => Except.ok ("projects/" ++ pID ++ "/serviceAccounts/" ++ sa)

/-- The message carried by both extraction failures in the source. -/
def zoneFmtMsg : String := "required format : projects/[NUMERIC_PROJECT_ID]/zones/[ZONE]"

/-- Embeds `metadata.ExtractionRegion`: splits the raw zone path on `/`,
takes the final part, demands at least 3 characters, and drops the final
two characters (Go's `v[:len(v)-2]`; the inputs are ASCII so byte and
character indexing agree). -/
def ExtractionRegion (metaZone : String) : Except Err String :=
  let l := goSplit '/' metaZone
  if l.length < 1 then Except.error (Err.invalidArgument zoneFmtMsg)
  else
    let v := l.getD (l.length - 1) ""
    if v.length < 3 then Except.error (Err.invalidArgument zoneFmtMsg)
    else Except.ok (String.mk (v.data.take (v.data.length - 2)))

/-- Embeds `metadata.ExtractionZone`: splits the raw zone path on `/` and
returns the final part. -/
def ExtractionZone (metaZone : String) : Except Err String :=
  let l := goSplit '/' metaZone
  if l.length < 1 then Except.error (Err.invalidArgument zoneFmtMsg)
  else Except.ok (l.getD (l.length - 1) "")

theorem splitAux_ne_nil (sep : Char) : ∀ cs acc, splitAux sep cs acc ≠ [] := by
  intro cs
  induction cs with
  | nil => intro acc; simp [splitAux]
  | cons c cs ih =>
    intro acc
    rw [splitAux]
    by_cases hc : c = sep
    · simp [hc]
    · simpa [hc] using ih (c :: acc)

theorem splitAux_no_sep (sep : Char) :
    ∀ z acc, sep ∉ z → splitAux sep z acc = [acc.reverse ++ z] := by
  intro z
  induction z with
  | nil => intro acc _; simp [splitAux]
  | cons c z ih =>
    intro acc hz
    have hc : c ≠ sep := fun h => hz (by simp [h])
    rw [splitAux, if_neg hc, ih (c :: acc) (fun h => hz (List.mem_cons_of_mem _ h))]
    simp

theorem getLast?_cons_of_ne_nil {α : Type} (a : α) {l : List α} (h : l ≠ []) :
    (a :: l).getLast? = l.getLast? := by
  rcases l with _ | ⟨b, t⟩
  · exact absurd rfl h
  · exact List.getLast?_cons_cons

theorem splitAux_getLast?_append (sep : Char) (z : List Char) (hz : sep ∉ z) :
    ∀ p acc, (splitAux sep (p ++ sep :: z) acc).getLast? = some z := by
  intro p
  induction p with
  | nil =>
    intro acc
    rw [List.nil_append, splitAux, if_pos rfl, splitAux_no_sep sep z [] hz]
    simp
  | cons c p ih =>
    intro acc
    rw [List.cons_append, splitAux]
    by_cases hc : c = sep
    · rw [if_pos hc]
      rw [getLast?_cons_of_ne_nil _ (splitAux_ne_nil sep _ _), ih []]
    · rw [if_neg hc, ih (c :: acc)]

theorem splitAux_head?_append (sep : Char) :
    ∀ a, sep ∉ a → ∀ b acc, (splitAux sep (a ++ sep :: b) acc).head? = some (acc.reverse ++ a) := by
  intro a
  induction a with
  | nil =>
    intro _ b acc
    rw [List.nil_append, splitAux, if_pos rfl]
    simp
  | cons c a ih =>
    intro ha b acc
    have hc : c ≠ sep := fun h => ha (by simp [h])
    rw [List.cons_append, splitAux, if_neg hc,
      ih (fun h => ha (List.mem_cons_of_mem _ h)) b (c :: acc)]
    simp

theorem splitAux_length (sep : Char) :
    ∀ cs acc, (splitAux sep cs acc).length = cs.count sep + 1 := by
  intro cs
  induction cs with
  | nil => intro acc; simp [splitAux]
  | cons c cs ih =>
    intro acc
    rw [splitAux]
    by_cases hc : c = sep
    · subst hc
      simp [List.count_cons, ih]
    · rw [if_neg hc, ih (c :: acc), List.count_cons]
      have hsc : ¬sep = c := fun h => hc h.symm
      simp [hsc, hc]

theorem getD_length_sub_one {α : Type} : ∀ (l : List α) (d : α),
    l.getD (l.length - 1) d = l.getLast?.getD d := by
  intro l
  induction l with
  | nil => intro d; simp [List.getD]
  | cons a l ih =>
    intro d
    rcases hl : l with _ | ⟨b, t⟩
    · simp [List.getD]
    · rw [← hl]
      have hlen : (a :: l).length - 1 = (l.length - 1) + 1 := by
        rw [hl]; simp
      rw [hlen, List.getD_cons_succ, ih d, getLast?_cons_of_ne_nil a (by rw [hl]; simp)]

theorem data_append (a b : String) : (a ++ b).data = a.data ++ b.data := rfl

/-- Go's `time.Time`, reduced to the wall-clock instant it denotes:
seconds since the Unix epoch plus a nanosecond part. -/
structure GoTime where
  sec : Int
  nsec : Int
deriving DecidableEq, Repr

/-- Go's `Time.Unix()`: the Unix-seconds value of the instant. -/
def GoTime.Unix (t : GoTime) : Int := t.sec

/-- One row of `QueryStat` from the spanner package, field for field
(`int64` as `Int`, `float64` as `Float`, `time.Time` as `GoTime`). -/
structure QueryStat where
  InsertID : String
  IntervalEnd : GoTime
  Text : String
  TextTruncated : Bool
  TextFingerprint : Int
  ExecuteCount : Int
  AvgLatencySeconds : Float
  AvgRows : Float
  AvgBytes : Float
  AvgRowsScanned : Float
  AvgCPUSeconds : Float

/-- Embeds the method `(*QueryStat).ToInsertID`, which runs
`fmt.Sprintf("%v-_-%v", s.IntervalEnd.Unix(), s.TextFingerprint)`, stores
the result in the receiver's `InsertID` field and returns it.  The Go
method mutates its receiver, so the embedding returns the string together
with the updated record. -/
def QueryStat.ToInsertID (s : QueryStat) : String × QueryStat :=
  let insertID :=
    String.mk (intDecChars s.IntervalEnd.Unix ++ ['-', '_', '-'] ++ intDecChars s.TextFingerprint)
  (insertID, { s with InsertID := insertID })

/-- The source constant `queryStatsTopMinute`: the query template whose
only variable is `.Table`. -/
def queryStatsTopMinute : String :=
  "\nSELECT\n  text,\n  text_truncated,\n  text_fingerprint,\n  interval_end,\n  execution_count,\n  avg_latency_seconds,\n  avg_rows,\n  avg_bytes,\n  avg_rows_scanned,\n  avg_cpu_seconds\nFROM \x7b\x7b.Table\x7d\x7d\n"

/-- The template text up to (and excluding) the `.Table` action. -/
def queryStatsSQLPrefix : String :=
  "\nSELECT\n  text,\n  text_truncated,\n  text_fingerprint,\n  interval_end,\n  execution_count,\n  avg_latency_seconds,\n  avg_rows,\n  avg_bytes,\n  avg_rows_scanned,\n  avg_cpu_seconds\nFROM "

/-- The three fixed source view name constants of the spanner package. -/
def queryStatsTopMinuteTable : String := "spanner_sys.query_stats_top_minute"

/-- See `queryStatsTopMinuteTable`. -/
def queryStatsTop10MinuteTable : String := "spanner_sys.query_stats_top_10minute"

/-- See `queryStatsTopMinuteTable`. -/
def queryStatsTopHourTable : String := "spanner_sys.query_stats_top_hour"

/-- Substitution step of `text/template.Execute` for the fixed template:
every occurrence of the action `\x7b\x7b.Table\x7d\x7d` is replaced by
`val`, all other characters are copied verbatim; substituted text is not
rescanned. -/
def substTable (val : List Char) : List Char → List Char
  | '\x7b' :: '\x7b' :: '.' :: 'T' :: 'a' :: 'b' :: 'l' :: 'e' :: '\x7d' :: '\x7d' :: rest =>
    val ++ substTable val rest
  | c :: cs => c :: substTable val cs
  | [] => []

/-- The statement-construction step of `GetQueryStats`: the caller-supplied
`table` string is executed against `queryStatsTopQueryTemplate` to produce
the SQL that is sent to the row source.  Query execution and row decoding
are external collaborators and are not modelled. -/
def GetQueryStatsSQL (table : String) : String :=
  String.mk (substTable table.data queryStatsTopMinute.data)

/-- Field types appearing in the fixed destination schema. -/
inductive BQFieldType where
  | timestamp
  | string
  | boolean
  | integer
  | float
deriving DecidableEq, Repr

/-- One field of a `bigquery.Schema` (the `Type` field of the Go struct is
rendered as `FieldKind`, `Type` not being a usable field name in Lean). -/
structure BQFieldSchema where
  Name : String
  Required : Bool
  FieldKind : BQFieldType
deriving DecidableEq, Repr

/-- The source constant `queryStatsBigQueryTableSchema`, field for field. -/
def queryStatsBigQueryTableSchema : List BQFieldSchema :=
  [ { Name := "IntervalEnd", Required := true, FieldKind := BQFieldType.timestamp },
    { Name := "Text", Required := true, FieldKind := BQFieldType.string },
    { Name := "TextTruncated", Required := true, FieldKind := BQFieldType.boolean },
    { Name := "TextFingerprint", Required := true, FieldKind := BQFieldType.integer },
    { Name := "ExecuteCount", Required := true, FieldKind := BQFieldType.integer },
    { Name := "AvgLatencySeconds", Required := true, FieldKind := BQFieldType.float },
    { Name := "AvgRows", Required := true, FieldKind := BQFieldType.float },
    { Name := "AvgBytes", Required := true, FieldKind := BQFieldType.float },
    { Name := "AvgRowsScanned", Required := true, FieldKind := BQFieldType.float },
    { Name := "AvgCPUSeconds", Required := true, FieldKind := BQFieldType.float } ]

/-- One `bigquery.StructSaver` as built by `ToBigQuery`. -/
structure StructSaver where
  Schema : List BQFieldSchema
  InsertID : String
  Struct : QueryStat

/-- Embeds the loop of `(*QueryStatsCopyService).ToBigQuery`: every record
gets its insert id computed (mutating the record), is wrapped in a
`StructSaver` with the fixed schema, and the whole list is handed to a
single `Inserter().Put` call; the returned list is exactly the argument of
that one bulk insert. -/
def ToBigQuery : List QueryStat → List StructSaver
  | [] => []
  | qs :: rest =>
    let r := qs.ToInsertID
    { Schema := queryStatsBigQueryTableSchema, InsertID := r.1, Struct := r.2 } :: ToBigQuery rest

/-- An environment holding a single variable. -/
def envOnly (k v : String) : String → String :=
  fun q => if q = k then v else ""

/-- A world outside the managed environment with the given variables set;
the metadata endpoint is unreachable there. -/
def offGCE (e : String → String) : World :=
  { onGCE := false, env := e,
    metaProjectID := Except.error (Err.notFound "unreachable"),
    getMeta := fun _ => Except.error (Err.notFound "unreachable") }

/-- A sample statistics record used to instantiate the general theorems. -/
def sampleStat : QueryStat :=
  { InsertID := "", IntervalEnd := { sec := 1700000000, nsec := 0 }, Text := "SELECT 1",
    TextTruncated := false, TextFingerprint := 42, ExecuteCount := 7,
    AvgLatencySeconds := 0.5, AvgRows := 1.0, AvgBytes := 64.0,
    AvgRowsScanned := 2.0, AvgCPUSeconds := 0.25 }

/-- A second sample record: same interval, different fingerprint. -/
def sampleStat2 : QueryStat :=
  { sampleStat with TextFingerprint := 43 }

/-- A default `QueryStat` for positional list access. -/
def dummyStat : QueryStat :=
  { InsertID := "", IntervalEnd := { sec := 0, nsec := 0 }, Text := "",
    TextTruncated := false, TextFingerprint := 0, ExecuteCount := 0,
    AvgLatencySeconds := 0.0, AvgRows := 0.0, AvgBytes := 0.0,
    AvgRowsScanned := 0.0, AvgCPUSeconds := 0.0 }

/-- A default `StructSaver` for positional list access. -/
def dummySaver : StructSaver :=
  { Schema := [], InsertID := "", Struct := dummyStat }

/-- The final `/`-separated segment of a string, as the extraction
functions compute it (`l[len(l)-1]` of the split). -/
def lastSegment (s : String) : String :=
  (goSplit '/' s).getD ((goSplit '/' s).length - 1) ""

theorem toInsertID_fst (s : QueryStat) :
    (s.ToInsertID).1 =
      String.mk (intDecChars s.IntervalEnd.Unix ++ ['-', '_', '-'] ++ intDecChars s.TextFingerprint) :=
  rfl

theorem insertID_ne_of_fingerprint_ne {s t : QueryStat}
    (hi : s.IntervalEnd = t.IntervalEnd) (hf : s.TextFingerprint ≠ t.TextFingerprint) :
    (s.ToInsertID).1 ≠ (t.ToInsertID).1 := by
  intro h
  apply hf
  rw [toInsertID_fst, toInsertID_fst, hi] at h
  have hdata := congrArg String.data h
  simp only [List.append_assoc] at hdata
  exact intDecChars_inj (List.append_cancel_left (List.append_cancel_left hdata))

theorem goSplit_length_pos (sep : Char) (s : String) : 0 < (goSplit sep s).length := by
  rw [goSplit, List.length_map]
  exact List.length_pos.mpr (splitAux_ne_nil sep s.data [])

theorem lastSegment_def (s : String) :
    (goSplit '/' s).getD ((goSplit '/' s).length - 1) "" = lastSegment s :=
  rfl

theorem getD_zero {α : Type} (l : List α) (d : α) : l.getD 0 d = l.head?.getD d := by
  cases l <;> simp [List.getD]

theorem toBigQuery_length (qss : List QueryStat) : (ToBigQuery qss).length = qss.length := by
  induction qss with
  | nil => rfl
  | cons qs rest ih => simp [ToBigQuery, ih]

theorem toBigQuery_getD (qss : List QueryStat) :
    ∀ i, i < qss.length →
      (ToBigQuery qss).getD i dummySaver =
        { Schema := queryStatsBigQueryTableSchema,
          InsertID := ((qss.getD i dummyStat).ToInsertID).1,
          Struct := ((qss.getD i dummyStat).ToInsertID).2 } := by
  induction qss with
  | nil => intro i hi; simp at hi
  | cons qs rest ih =>
    intro i hi
    cases i with
    | zero => rfl
    | succ j =>
      rw [ToBigQuery]
      simp only [List.getD_cons_succ]
      exact ih j (by simpa using hi)

/-- C1: `ToInsertID` yields the decimal Unix seconds of `interval_end`,
the separator `-_-`, and the decimal `text_fingerprint`; it is determined
by `(interval_end, text_fingerprint)`, and for a fixed `interval_end` it is
injective in `text_fingerprint`. -/
theorem toInsertID_deterministic_injective (s t : QueryStat) :
    ((s.ToInsertID).1 = intDecStr s.IntervalEnd.Unix ++ "-_-" ++ intDecStr s.TextFingerprint)
    ∧ (s.IntervalEnd = t.IntervalEnd → s.TextFingerprint = t.TextFingerprint →
        (s.ToInsertID).1 = (t.ToInsertID).1)
    ∧ (s.IntervalEnd = t.IntervalEnd → s.TextFingerprint ≠ t.TextFingerprint →
        (s.ToInsertID).1 ≠ (t.ToInsertID).1) := by
  refine ⟨rfl, fun hi hf => ?_, fun hi hf => insertID_ne_of_fingerprint_ne hi hf⟩
  rw [toInsertID_fst, toInsertID_fst, hi, hf]

/-- Witness for C1 at two concrete records sharing an interval. -/
theorem toInsertID_deterministic_injective_witness :
    sampleStat.IntervalEnd = sampleStat2.IntervalEnd
    ∧ sampleStat.TextFingerprint ≠ sampleStat2.TextFingerprint
    ∧ (sampleStat.ToInsertID).1 ≠ (sampleStat2.ToInsertID).1 :=
  ⟨rfl, by decide,
    (toInsertID_deterministic_injective sampleStat sampleStat2).2.2 rfl (by decide)⟩

/-- C2 counterexample: the input `abc` contains no `/`, yet both
extraction functions succeed (`ExtractionZone` returns the whole string,
`ExtractionRegion` strips two characters), contradicting the claim that
both fail with `InvalidArgument` on inputs without a `/`. -/
theorem extraction_no_slash_counterexample :
    '/' ∉ "abc".data
    ∧ ExtractionZone "abc" = Except.ok "abc"
    ∧ ExtractionRegion "abc" = Except.ok "a" := by
  refine ⟨by decide, by decide, by decide⟩

/-- C2 amended: `strings.Split` always yields at least one part, so the
no-`/` guard is dead code; `ExtractionZone` never fails and returns the
final `/`-separated segment, while `ExtractionRegion` fails with
`InvalidArgument` exactly when that final segment is shorter than 3
characters (whether or not the input contains a `/`). -/
theorem extraction_failure_characterization (s : String) :
    ExtractionZone s = Except.ok (lastSegment s)
    ∧ ((lastSegment s).length < 3 →
        ExtractionRegion s = Except.error (Err.invalidArgument zoneFmtMsg))
    ∧ (∀ e, ExtractionRegion s = Except.error e →
        (lastSegment s).length < 3 ∧ e = Err.invalidArgument zoneFmtMsg) := by
  have hpos := goSplit_length_pos '/' s
  have hguard : ¬(goSplit '/' s).length < 1 := by omega
  refine ⟨?_, fun hshort => ?_, fun e he => ?_⟩
  · rw [ExtractionZone]
    simp only [hguard, if_false]
    rfl
  · rw [ExtractionRegion]
    simp only [hguard, if_false]
    rw [lastSegment_def, if_pos hshort]
  · rw [ExtractionRegion] at he
    simp only [hguard, if_false] at he
    rw [lastSegment_def] at he
    by_cases hshort : (lastSegment s).length < 3
    · rw [if_pos hshort] at he
      exact ⟨hshort, by injection he with h; exact h.symm ▸ rfl⟩
    · rw [if_neg hshort] at he
      exact absurd he (by simp)

/-- Witness for C2 amended at the slash-free input `ab`. -/
theorem extraction_failure_characterization_witness :
    ExtractionZone "ab" = Except.ok "ab"
    ∧ ExtractionRegion "ab" = Except.error (Err.invalidArgument zoneFmtMsg) := by
  have h := extraction_failure_characterization "ab"
  exact ⟨h.1.trans (by decide), h.2.1 (by decide)⟩

/-- C3: for a raw zone path `projects/<id>/zones/<zone>` whose zone name is
a nonempty region name followed by a dash and one letter (and contains no
slash), `ExtractionZone` returns the zone name and `ExtractionRegion`
returns it without its final two characters. -/
theorem extraction_zone_region_wellformed (id z r : String) (c : Char)
    (hz : z.data = r.data ++ ['-', c]) (hr : r ≠ "") (hnoslash : '/' ∉ z.data) :
    ExtractionZone ("projects/" ++ id ++ "/zones/" ++ z) = Except.ok z
    ∧ ExtractionRegion ("projects/" ++ id ++ "/zones/" ++ z) = Except.ok r := by
  have hdata : ("projects/" ++ id ++ "/zones/" ++ z).data =
      ("projects/".data ++ id.data ++ "/zones".data) ++ '/' :: z.data := by
    rw [data_append, data_append, data_append]
    have hzs : "/zones/".data = "/zones".data ++ ['/'] := by decide
    rw [hzs]
    simp [List.append_assoc]
  have hlast : (goSplit '/' ("projects/" ++ id ++ "/zones/" ++ z)).getLast? = some z := by
    rw [goSplit, List.getLast?_map, hdata,
      splitAux_getLast?_append '/' z.data hnoslash _ []]
    rfl
  have hgetD : lastSegment ("projects/" ++ id ++ "/zones/" ++ z) = z := by
    rw [lastSegment, getD_length_sub_one, hlast]
    rfl
  have hpos := goSplit_length_pos '/' ("projects/" ++ id ++ "/zones/" ++ z)
  have hguard : ¬(goSplit '/' ("projects/" ++ id ++ "/zones/" ++ z)).length < 1 := by omega
  have hrlen : 0 < r.data.length := List.length_pos.mpr (fun hnil => hr (by
    cases r with
    | mk d => simp at hnil; rw [hnil]))
  have hzlen : z.length = r.data.length + 2 := by
    show z.data.length = r.data.length + 2
    rw [hz]
    simp
  refine ⟨?_, ?_⟩
  · rw [ExtractionZone]
    simp only [hguard, if_false]
    rw [show (goSplit '/' ("projects/" ++ id ++ "/zones/" ++ z)).getD
        ((goSplit '/' ("projects/" ++ id ++ "/zones/" ++ z)).length - 1) "" =
        lastSegment ("projects/" ++ id ++ "/zones/" ++ z) from rfl, hgetD]
  · rw [ExtractionRegion]
    simp only [hguard, if_false]
    rw [show (goSplit '/' ("projects/" ++ id ++ "/zones/" ++ z)).getD
        ((goSplit '/' ("projects/" ++ id ++ "/zones/" ++ z)).length - 1) "" =
        lastSegment ("projects/" ++ id ++ "/zones/" ++ z) from rfl, hgetD]
    rw [if_neg (by omega : ¬z.length < 3)]
    have htake : z.data.take (z.data.length - 2) = r.data := by
      rw [hz]
      have : (r.data ++ ['-', c]).length - 2 = r.data.length := by simp
      rw [this, List.take_left]
    rw [htake]

/-- C4: off the managed environment `ProjectID` prefers
`GOOGLE_CLOUD_PROJECT`, falls back to `GCLOUD_PROJECT`, and fails exactly
when both are unset (empty), with a `NotFound` error. -/
theorem projectID_env_fallback (w : World) (h : w.onGCE = false) :
    (w.env "GOOGLE_CLOUD_PROJECT" ≠ "" →
        ProjectID w = Except.ok (w.env "GOOGLE_CLOUD_PROJECT"))
    ∧ (w.env "GOOGLE_CLOUD_PROJECT" = "" → w.env "GCLOUD_PROJECT" ≠ "" →
        ProjectID w = Except.ok (w.env "GCLOUD_PROJECT"))
    ∧ (w.env "GOOGLE_CLOUD_PROJECT" = "" → w.env "GCLOUD_PROJECT" = "" →
        ProjectID w = Except.error (Err.notFound
          "project id environment valiable is not found. plz set $GOOGLE_CLOUD_PROJECT"))
    ∧ (∀ e, ProjectID w = Except.error e →
        w.env "GOOGLE_CLOUD_PROJECT" = "" ∧ w.env "GCLOUD_PROJECT" = ""
        ∧ ∃ m, e = Err.notFound m) := by
  refine ⟨fun h1 => ?_, fun h1 h2 => ?_, fun h1 h2 => ?_, fun e he => ?_⟩
  · simp [ProjectID, h, h1]
  · simp [ProjectID, h, h1, h2]
  · simp [ProjectID, h, h1, h2]
  · by_cases h1 : w.env "GOOGLE_CLOUD_PROJECT" = ""
    · by_cases h2 : w.env "GCLOUD_PROJECT" = ""
      · refine ⟨h1, h2, ?_⟩
        simp [ProjectID, h, h1, h2] at he
        exact ⟨_, he.symm⟩
      · simp [ProjectID, h, h1, h2] at he
    · simp [ProjectID, h, h1] at he

/-- Witness for C4: with only `GCLOUD_PROJECT=foo` set, `ProjectID`
returns `foo`. -/
theorem projectID_env_fallback_witness :
    ProjectID (offGCE (envOnly "GCLOUD_PROJECT" "foo")) = Except.ok "foo" := by
  have h := (projectID_env_fallback (offGCE (envOnly "GCLOUD_PROJECT" "foo")) rfl).2.1
    (by decide) (by decide)
  exact h.trans (by decide)

/-- C5: `ServiceAccountName` fails with `InvalidFormat` whenever the split
of the email on `@` does not have exactly two parts, and returns the part
before the `@` for an email with exactly one `@`. -/
theorem serviceAccountName_split (w : World) (h : w.onGCE = false) (email : String)
    (he : w.env "GCLOUD_SERVICE_ACCOUNT" = email) :
    ((goSplit '@' email).length ≠ 2 →
        ServiceAccountName w =
          Except.error (Err.invalidFormat ("invalid ServiceAccountEmail. email=" ++ email)))
    ∧ (∀ a b : List Char, email.data = a ++ '@' :: b → '@' ∉ a → '@' ∉ b →
        ServiceAccountName w = Except.ok (String.mk a)) := by
  have hsa : ServiceAccountEmail w = Except.ok email := by
    simp [ServiceAccountEmail, h, he]
  refine ⟨fun hlen => ?_, fun a b hdata ha hb => ?_⟩
  · simp [ServiceAccountName, hsa, hlen]
  · have hlen2 : (goSplit '@' email).length = 2 := by
      rw [goSplit, List.length_map, splitAux_length, hdata, List.count_append,
        List.count_cons_self, List.count_eq_zero_of_not_mem ha,
        List.count_eq_zero_of_not_mem hb]
    have hhead : (goSplit '@' email).head? = some (String.mk a) := by
      rw [goSplit, List.head?_map, hdata, splitAux_head?_append '@' a ha b []]
      rfl
    simp only [ServiceAccountName, hsa]
    rw [if_neg (by omega : ¬(goSplit '@' email).length ≠ 2)]
    rw [getD_zero, hhead]
    rfl

/-- Witness for C5 at the spec's example email. -/
theorem serviceAccountName_split_witness :
    ServiceAccountName
        (offGCE (envOnly "GCLOUD_SERVICE_ACCOUNT" "foo@bar.iam.gserviceaccount.com")) =
      Except.ok "foo" := by
  have h := (serviceAccountName_split
      (offGCE (envOnly "GCLOUD_SERVICE_ACCOUNT" "foo@bar.iam.gserviceaccount.com")) rfl
      "foo@bar.iam.gserviceaccount.com" (by decide)).2
    "foo".data "bar.iam.gserviceaccount.com".data (by decide) (by decide) (by decide)
  exact h

/-- C6: `ServiceAccountID` composes
`projects/<project>/serviceAccounts/<email>` from the two sub-lookups and
propagates either sub-lookup's error verbatim. -/
theorem serviceAccountID_composition (w : World) :
    (∀ sa pID, ServiceAccountEmail w = Except.ok sa → ProjectID w = Except.ok pID →
        ServiceAccountID w = Except.ok ("projects/" ++ pID ++ "/serviceAccounts/" ++ sa))
    ∧ (∀ e, ServiceAccountEmail w = Except.error e → ServiceAccountID w = Except.error e)
    ∧ (∀ sa e, ServiceAccountEmail w = Except.ok sa → ProjectID w = Except.error e →
        ServiceAccountID w = Except.error e) := by
  refine ⟨fun sa pID h1 h2 => ?_, fun e h1 => ?_, fun sa e h1 h2 => ?_⟩
  · simp [ServiceAccountID, h1, h2]
  · simp [ServiceAccountID, h1]
  · simp [ServiceAccountID, h1, h2]

/-- Witness for C6 at a concrete off-platform world. -/
theorem serviceAccountID_composition_witness :
    ServiceAccountID (offGCE (fun k =>
        if k = "GCLOUD_SERVICE_ACCOUNT" then "sa@example.test"
        else if k = "GOOGLE_CLOUD_PROJECT" then "proj1" else "")) =
      Except.ok "projects/proj1/serviceAccounts/sa@example.test" := by
  have h := (serviceAccountID_composition (offGCE (fun k =>
      if k = "GCLOUD_SERVICE_ACCOUNT" then "sa@example.test"
      else if k = "GOOGLE_CLOUD_PROJECT" then "proj1" else ""))).1
    "sa@example.test" "proj1" (by decide) (by decide)
  exact h.trans (by decide)

/-- C7: off the managed environment `ServiceAccountEmail` returns the
`GCLOUD_SERVICE_ACCOUNT` variable verbatim and never fails; the empty
string is a valid result. -/
theorem serviceAccountEmail_env_verbatim (w : World) (h : w.onGCE = false) :
    ServiceAccountEmail w = Except.ok (w.env "GCLOUD_SERVICE_ACCOUNT") := by
  simp [ServiceAccountEmail, h]

/-- Witness for C7 with the variable unset: the empty string comes back as
a non-error result. -/
theorem serviceAccountEmail_env_verbatim_witness :
    ServiceAccountEmail (offGCE (fun _ => "")) = Except.ok "" :=
  serviceAccountEmail_env_verbatim (offGCE (fun _ => "")) rfl

set_option maxRecDepth 8000 in
/-- C8 counterexample: `GetQueryStats` takes its table name as a plain
string; a name outside the three-constant enumeration is substituted into
the generated query all the same, so the claimed closed-enumeration
guarantee does not hold of the code itself. -/
theorem getQueryStats_freeform_counterexample :
    GetQueryStatsSQL "user_supplied_table" =
      "\nSELECT\n  text,\n  text_truncated,\n  text_fingerprint,\n  interval_end,\n  execution_count,\n  avg_latency_seconds,\n  avg_rows,\n  avg_bytes,\n  avg_rows_scanned,\n  avg_cpu_seconds\nFROM user_supplied_table\n"
    ∧ "user_supplied_table" ≠ queryStatsTopMinuteTable
    ∧ "user_supplied_table" ≠ queryStatsTop10MinuteTable
    ∧ "user_supplied_table" ≠ queryStatsTopHourTable :=
  ⟨by decide, by decide, by decide, by decide⟩

set_option maxRecDepth 8000 in
/-- C8 amended: the table name substituted into the template is exactly
the string passed to `GetQueryStats` — the template's only variable — and
distinct arguments yield distinct queries; the three view-name constants
exist, but nothing in the code restricts the argument to them, so the
substituted name is drawn from the enumeration only when the caller passes
one of the three constants. -/
theorem getQueryStats_table_substitution (t : String) :
    GetQueryStatsSQL t = String.mk (queryStatsSQLPrefix.data ++ t.data ++ ['\n'])
    ∧ (∀ u : String, GetQueryStatsSQL t = GetQueryStatsSQL u → t = u) := by
  refine ⟨rfl, fun u hu => ?_⟩
  have hu2 : String.mk (queryStatsSQLPrefix.data ++ t.data ++ ['\n']) =
      String.mk (queryStatsSQLPrefix.data ++ u.data ++ ['\n']) := hu
  have hl : queryStatsSQLPrefix.data ++ t.data ++ ['\n'] =
      queryStatsSQLPrefix.data ++ u.data ++ ['\n'] := congrArg String.data hu2
  rw [List.append_assoc, List.append_assoc] at hl
  have hl2 := List.append_cancel_left hl
  have hl3 : t.data = u.data := by
    have := congrArg (fun l => l.take (l.length - 1)) hl2
    simpa using this
  exact congrArg String.mk hl3

set_option maxRecDepth 8000 in
/-- Witness for C8 amended, instantiated at the minute-granularity view
name. -/
theorem getQueryStats_table_substitution_witness :
    GetQueryStatsSQL queryStatsTopMinuteTable =
      String.mk (queryStatsSQLPrefix.data ++ queryStatsTopMinuteTable.data ++ ['\n'])
    ∧ queryStatsTopMinuteTable = queryStatsTopMinuteTable := by
  have h := getQueryStats_table_substitution queryStatsTopMinuteTable
  exact ⟨h.1, h.2 queryStatsTopMinuteTable rfl⟩

/-- C9: `ToBigQuery` wraps every record — and nothing else — with the
fixed destination schema and the record's own insert id, submitting all of
them in the one bulk insert; two records with one interval and two
fingerprints yield two entries with distinct insert ids. -/
theorem toBigQuery_bulk_entries (qss : List QueryStat) (q1 q2 : QueryStat) :
    ((ToBigQuery qss).length = qss.length)
    ∧ (∀ i, i < qss.length →
        ((ToBigQuery qss).getD i dummySaver).Schema = queryStatsBigQueryTableSchema
        ∧ ((ToBigQuery qss).getD i dummySaver).InsertID = ((qss.getD i dummyStat).ToInsertID).1
        ∧ ((ToBigQuery qss).getD i dummySaver).Struct = ((qss.getD i dummyStat).ToInsertID).2)
    ∧ (q1.IntervalEnd = q2.IntervalEnd → q1.TextFingerprint ≠ q2.TextFingerprint →
        (ToBigQuery [q1, q2]).length = 2
        ∧ ((ToBigQuery [q1, q2]).getD 0 dummySaver).InsertID ≠
            ((ToBigQuery [q1, q2]).getD 1 dummySaver).InsertID) := by
  refine ⟨toBigQuery_length qss, fun i hi => ?_, fun hi hf => ?_⟩
  · rw [toBigQuery_getD qss i hi]
    exact ⟨rfl, rfl, rfl⟩
  · refine ⟨rfl, ?_⟩
    show (q1.ToInsertID).1 ≠ (q2.ToInsertID).1
    exact insertID_ne_of_fingerprint_ne hi hf

/-- Witness for C9 at two concrete records sharing an interval. -/
theorem toBigQuery_bulk_entries_witness :
    (ToBigQuery [sampleStat, sampleStat2]).length = 2
    ∧ ((ToBigQuery [sampleStat, sampleStat2]).getD 0 dummySaver).InsertID ≠
        ((ToBigQuery [sampleStat, sampleStat2]).getD 1 dummySaver).InsertID :=
  (toBigQuery_bulk_entries [sampleStat, sampleStat2] sampleStat sampleStat2).2.2
    rfl (by decide)

/-- C10: `ToInsertID` changes only the receiver's `InsertID` field, and
returns exactly the value it stores there. -/
theorem toInsertID_frame (s : QueryStat) :
    (s.ToInsertID).2.IntervalEnd = s.IntervalEnd
    ∧ (s.ToInsertID).2.Text = s.Text
    ∧ (s.ToInsertID).2.TextTruncated = s.TextTruncated
    ∧ (s.ToInsertID).2.TextFingerprint = s.TextFingerprint
    ∧ (s.ToInsertID).2.ExecuteCount = s.ExecuteCount
    ∧ (s.ToInsertID).2.AvgLatencySeconds = s.AvgLatencySeconds
    ∧ (s.ToInsertID).2.AvgRows = s.AvgRows
    ∧ (s.ToInsertID).2.AvgBytes = s.AvgBytes
    ∧ (s.ToInsertID).2.AvgRowsScanned = s.AvgRowsScanned
    ∧ (s.ToInsertID).2.AvgCPUSeconds = s.AvgCPUSeconds
    ∧ (s.ToInsertID).1 = (s.ToInsertID).2.InsertID :=
  ⟨rfl, rfl, rfl, rfl, rfl, rfl, rfl, rfl, rfl, rfl, rfl⟩

/-- Witness for C3 at the spec's example path. -/
theorem extraction_zone_region_wellformed_witness :
    ExtractionZone "projects/123/zones/us-central1-a" = Except.ok "us-central1-a"
    ∧ ExtractionRegion "projects/123/zones/us-central1-a" = Except.ok "us-central1" := by
  have h := extraction_zone_region_wellformed "123" "us-central1-a" "us-central1" 'a'
    (by decide) (by decide) (by decide)
  exact ⟨(by decide : ("projects/" ++ "123" ++ "/zones/" ++ "us-central1-a" : String) = "projects/123/zones/us-central1-a") ▸ h.1,
    (by decide : ("projects/" ++ "123" ++ "/zones/" ++ "us-central1-a" : String) = "projects/123/zones/us-central1-a") ▸ h.2⟩

end Gcpbox
